import Mathlib

/-!
Verification of `NANO_PWM_Buffer_EEPROM_11.ino` (V1.3 revision): a shallow
embedding of the PWM-detector firmware — the interrupt-driven edge capture,
the single-producer/single-consumer sample ring buffer, the tolerance
evaluation performed by the main loop, and the serial command protocol —
together with theorems about the embedded definitions.

Modelling conventions (AVR / Arduino Nano target):
* `unsigned long` is 32-bit: arithmetic that can wrap is taken `% 2^32`;
* `unsigned int` is 16-bit, `byte` is 8-bit: stores go through `% 2^16` /
  `% 2^8`;
* `int` is 16-bit signed: values converted to `int` go through `wrap16`;
* `micros()` / `millis()` timestamps are passed in as explicit parameters;
  within one pass of `loop()` the several `millis()` reads are modelled as
  a single instant;
* serial output is modelled as an accumulated `String`; `Serial.println`
  appends the Arduino line terminator `"\r\n"`, `Serial.print` appends
  nothing.
-/

/-- The modulus 2^32 of of `unsigned long` arithmetic on the AVR target. -/
def U32 : Nat := 4294967296

/-- The modulus 2^16 of of `unsigned int` arithmetic on the AVR target. -/
def U16 : Nat := 65536

/-- Conversion of a mathematical integer to the 16-bit signed `int` of the
AVR target (gcc's modular behaviour for out-of-range conversions). -/
def wrap16 (x : Int) : Int := (x + 32768) % 65536 - 32768

/-- Conversion `(unsigned int)x` of a `long` value `x` (reduce mod 2^16). -/
def u16ofInt (x : Int) : Nat := (x % 65536).toNat

/-- Conversion `(byte)x` of a `long` value `x` (reduce mod 2^8). -/
def byteOfInt (x : Int) : Nat := (x % 256).toNat

/-- Source `#define BUFFER_SIZE 10`. -/
def BUFFER_SIZE : Nat := 10

/-- Source `#define ERROR_OFF 255`. -/
def ERROR_OFF : Nat := 255

/-- Source `#define MAX_COMMAND_LENGTH 60`. -/
def MAX_COMMAND_LENGTH : Nat := 60

/-- Source `struct PwmMeasurement { unsigned long period; int dutyCyclePromile;
unsigned long impuls; }`. -/
structure PwmMeasurement where
  period : Nat
  dutyCyclePromile : Int
  impuls : Nat
deriving DecidableEq, Repr

/-- Write the `i`-th element of a list (no-op when out of range); used to
model an assignment `buffer[i] = v` into the fixed-size ring-buffer array. -/
def setNth : List PwmMeasurement → Nat → PwmMeasurement → List PwmMeasurement
  | [], _, _ => []
  | _ :: xs, 0, v => v :: xs
  | x :: xs, n + 1, v => x :: setNth xs n v

/-- The shared ring-buffer state: `volatile PwmMeasurement buffer[BUFFER_SIZE]`
with the producer index `head` and consumer index `tail`. -/
structure QueueState where
  buf : List PwmMeasurement
  head : Nat
  tail : Nat
deriving DecidableEq, Repr

/-- The power-on queue state: zero-initialised array, `head = tail = 0`. -/
def emptyQueue : QueueState :=
  { buf := List.replicate BUFFER_SIZE ⟨0, 0, 0⟩, head := 0, tail := 0 }

/-- Source `pushMeasurement`: store at `head` and advance it, unless the advanced
head would meet `tail` (queue full), in which case the sample is dropped. -/
def pushMeasurement (q : QueueState) (m : PwmMeasurement) : QueueState :=
  let nextHead := (q.head + 1) % BUFFER_SIZE
  if nextHead ≠ q.tail then
    { q with buf := setNth q.buf q.head m, head := nextHead }
  else q

/-- Source `popMeasurement`: `none` when `head == tail` (empty, state untouched),
otherwise the element at `tail` together with the advanced-tail state. -/
def popMeasurement (q : QueueState) : Option PwmMeasurement × QueueState :=
  if q.head = q.tail then (none, q)
  else (some (q.buf.getD q.tail ⟨0, 0, 0⟩),
        { q with tail := (q.tail + 1) % BUFFER_SIZE })

/-- Push a whole list of samples in order. -/
def pushList (q : QueueState) (l : List PwmMeasurement) : QueueState :=
  l.foldl pushMeasurement q

/-- Pop up to `n` samples, collecting them in pop order. -/
def popList : Nat → QueueState → List PwmMeasurement
  | 0, _ => []
  | n + 1, q =>
    match popMeasurement q with
    | (some m, q') => m :: popList n q'
    | (none, _) => []

/-- ISR-owned state: `lastEdgeTime`, `highDuration`, `lowDuration`,
`pinState` (all `volatile` globals written by `handlePinChange`). -/
structure IsrState where
  lastEdgeTime : Nat
  highDuration : Nat
  lowDuration : Nat
  pinState : Bool
deriving DecidableEq, Repr

/-- The sample computed inside `handlePinChange` on a transition to the
conducting level, from the previously stored `highDuration` and the fresh
LOW duration: when both are nonzero and the 32-bit sum `currentPeriod` is
nonzero, `dutyCycle = (highDuration * 1000UL) / currentPeriod` (unsigned
32-bit arithmetic, then converted to the 16-bit `int` field). -/
def isrNewSample (highDuration duration : Nat) : Option PwmMeasurement :=
  if highDuration > 0 ∧ duration > 0 then
    if (highDuration + duration) % U32 > 0 then
      some ⟨(highDuration + duration) % U32,
            wrap16 (((highDuration * 1000) % U32 /
              ((highDuration + duration) % U32) : Nat) : Int),
            highDuration⟩
    else none
  else none

/-- Source `handlePinChange`: on every edge, compute the wrap-safe duration since
the previous edge and reclassify; on a transition into the conducting level
(`digitalRead == log1`, i.e. the pin reads low) record the LOW duration and
possibly enqueue a sample, otherwise record the HIGH duration.
`t` is the `micros()` reading, `pinLevel` the sampled pin level. -/
def handlePinChange (t : Nat) (pinLevel : Bool) (s : IsrState) (q : QueueState) :
    IsrState × QueueState :=
  let currentTime := t % U32
  let duration := (currentTime + U32 - s.lastEdgeTime % U32) % U32
  if pinLevel = false then
    let s' := { s with lastEdgeTime := currentTime, lowDuration := duration,
                       pinState := true }
    match isrNewSample s.highDuration duration with
    | some m => (s', pushMeasurement q m)
    | none => (s', q)
  else
    ({ s with lastEdgeTime := currentTime, highDuration := duration,
              pinState := false }, q)

/-- Source `struct MojeNastaveni`: the persisted configuration record. Field C
types: `verze` is `char[5]`, `spodni_hranice`/`horni_hranice`/`input`/
`max_error`/`listing` are `byte`, the `min_/max_perioda`, `min_/max_strida`,
`t_error` and `bps` fields are `unsigned int` (16-bit), the separators are
`char`. -/
structure MojeNastaveni where
  verze : String
  spodni_hranice : Nat
  horni_hranice : Nat
  input : Nat
  min_perioda : Nat
  max_perioda : Nat
  min_strida : Nat
  max_strida : Nat
  max_error : Nat
  t_error : Nat
  bps : Nat
  listing : Nat
  decimalSeparator : Char
  columnsSeparator : Char
deriving DecidableEq, Repr

/-- Field values lie within the ranges enforced by the C field types. -/
def MojeNastaveni.WF (c : MojeNastaveni) : Prop :=
  c.spodni_hranice < 256 ∧ c.horni_hranice < 256 ∧ c.input < 256 ∧
  c.min_perioda < U16 ∧ c.max_perioda < U16 ∧ c.min_strida < U16 ∧
  c.max_strida < U16 ∧ c.max_error < 256 ∧ c.t_error < U16 ∧
  c.bps < U16 ∧ c.listing < 256

/-- Source `tovarniNastaveni()`: the factory-default configuration record
(the function also persists it; persistence is outside the model). -/
def tovarniNastaveni : MojeNastaveni :=
  { verze := "V1.3", spodni_hranice := 40, horni_hranice := 60, input := 0,
    min_perioda := 18000, max_perioda := 22000, min_strida := 280,
    max_strida := 330, max_error := 1, t_error := 800, bps := 96,
    listing := 0, decimalSeparator := ',', columnsSeparator := ';' }

/-- An ASCII apostrophe (used in the settings listing). -/
def q39 : String := String.singleton (Char.ofNat 39)

/-- Source `zobrazNastaveni()`: the human-readable settings listing emitted after
every accepted update (each `Serial.println` ends a line with `"\r\n"`). -/
def zobrazNastaveni (c : MojeNastaveni) : String :=
  "Version: " ++ c.verze ++ "\r\n" ++
  "Threshold LOW: " ++ toString c.spodni_hranice ++ "%\r\n" ++
  "Threshold HIGH: " ++ toString c.horni_hranice ++ "%\r\n" ++
  "Invert output: " ++ toString c.input ++ "\r\n" ++
  "Min period: " ++ toString c.min_perioda ++ " us\r\n" ++
  "Max period: " ++ toString c.max_perioda ++ " us\r\n" ++
  "Min duty cycle: " ++ toString c.min_strida ++ " permille\r\n" ++
  "Max duty cycle: " ++ toString c.max_strida ++ " permille\r\n" ++
  "Max number of errors: " ++ toString c.max_error ++ "\r\n" ++
  "Min error signaling duration: " ++ toString c.t_error ++ " ms\r\n" ++
  "Serial line speed: " ++ toString c.bps ++ "00 baud\r\n" ++
  "Listing of measured frequency and duty cycle values: " ++
    toString c.listing ++ "[0-No; 1-Yes]\r\n" ++
  "Decimal separator: " ++ q39 ++ String.singleton c.decimalSeparator ++
    q39 ++ "\r\n" ++
  "Columns separator: " ++ q39 ++ String.singleton c.columnsSeparator ++
    q39 ++ "\r\n"

/-- C `isspace` over the execution character set (ASCII). -/
def isCSpace (c : Char) : Bool :=
  c == ' ' || c == '\t' || c == '\n' || c == '\x0b' || c == '\x0c' || c == '\r'

/-- C `isdigit`. -/
def isCDigit (c : Char) : Bool := '0' ≤ c && c ≤ '9'

/-- Numeric value of a digit string (most significant digit first). -/
def digitsVal (l : List Char) : Nat :=
  l.foldl (fun a c => a * 10 + (c.toNat - 48)) 0

/-- The `%ld` conversion of `sscanf`: skip whitespace, optional sign, then
at least one digit; returns the value and the unconsumed rest. `long`
overflow (conversion outside ±2^31) is undefined in C and not modelled;
every input considered here is far below that bound. -/
def parseLd (s : List Char) : Option (Int × List Char) :=
  let s1 := s.dropWhile (fun c => isCSpace c)
  let signed : Int × List Char :=
    match s1 with
    | '-' :: r => (-1, r)
    | '+' :: r => (1, r)
    | _ => (1, s1)
  let ds := signed.2.takeWhile (fun c => isCDigit c)
  if ds.isEmpty then none
  else some (signed.1 * (digitsVal ds : Int),
             signed.2.dropWhile (fun c => isCDigit c))

/-- The `%*s` conversion of `sscanf`: skip whitespace then consume a
nonempty run of non-whitespace; `none` models hitting end-of-input (sscanf
then returns EOF). -/
def skipStarS (s : List Char) : Option (List Char) :=
  let s1 := s.dropWhile (fun c => isCSpace c)
  if s1.isEmpty then none
  else some (s1.dropWhile (fun c => !isCSpace c))

/-- Model of `sscanf(command, "%*s %ld", &x)`: `none` iff fewer than one integer was
converted (the routine then returns false). -/
def sscanfOneLd (s : List Char) : Option Int :=
  match skipStarS s with
  | none => none
  | some r => (parseLd r).map Prod.fst

/-- Model of `sscanf(command, "%*s %ld %ld", &x, &y)`: `none` iff fewer than two
integers were converted. -/
def sscanfTwoLd (s : List Char) : Option (Int × Int) :=
  match skipStarS s with
  | none => none
  | some r =>
    match parseLd r with
    | none => none
    | some (a, r2) =>
      match parseLd r2 with
      | none => none
      | some (b, _) => some (a, b)

/-- Which `byte` configuration field a `byte*` argument of
`zpracujUniverzalniPrikaz` points at. -/
inductive BField where
  | spodniF | horniF | inputF | maxErrorF | listingF
deriving DecidableEq, Repr

/-- Which `unsigned int` configuration field an `unsigned int*` argument of
`zpracujUniverzalniPrikaz` points at. -/
inductive UField where
  | minPeriodaF | maxPeriodaF | minStridaF | maxStridaF | tErrorF | bpsF
deriving DecidableEq, Repr

/-- Source `if (lowPtr) *lowPtr = (byte)v;`. -/
def setB : Option BField → Int → MojeNastaveni → MojeNastaveni
  | none, _, c => c
  | some .spodniF, v, c => { c with spodni_hranice := byteOfInt v }
  | some .horniF, v, c => { c with horni_hranice := byteOfInt v }
  | some .inputF, v, c => { c with input := byteOfInt v }
  | some .maxErrorF, v, c => { c with max_error := byteOfInt v }
  | some .listingF, v, c => { c with listing := byteOfInt v }

/-- Source `if (uLowPtr) *uLowPtr = (unsigned int)v;`. -/
def setU : Option UField → Int → MojeNastaveni → MojeNastaveni
  | none, _, c => c
  | some .minPeriodaF, v, c => { c with min_perioda := u16ofInt v }
  | some .maxPeriodaF, v, c => { c with max_perioda := u16ofInt v }
  | some .minStridaF, v, c => { c with min_strida := u16ofInt v }
  | some .maxStridaF, v, c => { c with max_strida := u16ofInt v }
  | some .tErrorF, v, c => { c with t_error := u16ofInt v }
  | some .bpsF, v, c => { c with bps := u16ofInt v }

/-- Result of the shared validation routine: whether it returned true, the
configuration after the call, whether `EEPROM.put` ran, and the serial
output it produced. -/
structure ZResult where
  success : Bool
  cfg : MojeNastaveni
  eeprom : Bool
  out : String
deriving Repr

/-- The range-error message of `zpracujUniverzalniPrikaz` (the short form
is printed when both second-value pointers are null). -/
def rangeErrMsg (minValue maxValue : Nat) (oneVal : Bool) : String :=
  "\nError: Values must be in the range (" ++ toString minValue ++ "-" ++
  toString maxValue ++
  (if oneVal then ").\r\n"
   else ") and the first value must be less than or equal to the second.\r\n") ++
  "State was not changed.\r\n"

/-- The confirmation output of an accepted update: the
`Limits successfully updated:` line followed by the settings listing. -/
def updatedMsg (c : MojeNastaveni) : String :=
  "\nLimits successfully updated:\r\n" ++ zobrazNastaveni c

/-- The part of `zpracujUniverzalniPrikaz` after parsing succeeded with
values `nove_spodni`, `nove_horni`: the special baud-rate branch (which
tests `strcmp(command, "-b") == 0` against the *entire* received line), the
generic range validation with `low <= high` additionally required only for
two-value commands, and the stores through the non-null pointers. -/
def zpracujValidate (command : List Char) (minValue maxValue : Nat)
    (lowPtr highPtr : Option BField) (uLowPtr uHighPtr : Option UField)
    (cfg : MojeNastaveni) (nove_spodni nove_horni : Int) : ZResult :=
  if command = ['-', 'b'] then
    if nove_spodni = 96 ∨ nove_spodni = 144 ∨ nove_spodni = 192 ∨
       nove_spodni = 288 ∨ nove_spodni = 384 ∨ nove_spodni = 576 ∨
       nove_spodni = 1152 then
      ⟨true, setU uLowPtr nove_spodni cfg, true,
       updatedMsg (setU uLowPtr nove_spodni cfg)⟩
    else
      ⟨false, cfg, false,
       rangeErrMsg minValue maxValue (uHighPtr.isNone && highPtr.isNone)⟩
  else
    if decide ((minValue : Int) ≤ nove_spodni) &&
       decide (nove_spodni ≤ (maxValue : Int)) &&
       decide ((minValue : Int) ≤ nove_horni) &&
       decide (nove_horni ≤ (maxValue : Int)) &&
       (if uHighPtr.isSome || highPtr.isSome then
          decide (nove_spodni ≤ nove_horni)
        else true) then
      ⟨true,
       setB highPtr nove_horni (setB lowPtr nove_spodni
         (setU uHighPtr nove_horni (setU uLowPtr nove_spodni cfg))),
       true,
       updatedMsg (setB highPtr nove_horni (setB lowPtr nove_spodni
         (setU uHighPtr nove_horni (setU uLowPtr nove_spodni cfg))))⟩
    else
      ⟨false, cfg, false,
       rangeErrMsg minValue maxValue (uHighPtr.isNone && highPtr.isNone)⟩

/-- Source `zpracujUniverzalniPrikaz`: parse one or two integers after the command
keyword (two when any second-value pointer is non-null, matching the
source's `uHighPtr != nullptr || highPtr != nullptr` test; too few parsed
integers return false immediately), then validate and store via
`zpracujValidate`. -/
def zpracujUniverzalniPrikaz (command : List Char) (minValue maxValue : Nat)
    (lowPtr highPtr : Option BField) (uLowPtr uHighPtr : Option UField)
    (cfg : MojeNastaveni) : ZResult :=
  match (if uHighPtr.isSome || highPtr.isSome then sscanfTwoLd command
         else (sscanfOneLd command).map (fun v => (v, v))) with
  | none => ⟨false, cfg, false, ""⟩
  | some (nove_spodni, nove_horni) =>
    zpracujValidate command minValue maxValue lowPtr highPtr uLowPtr uHighPtr
      cfg nove_spodni nove_horni

/-- Zero-pad a number to six digits (the fractional part of `dtostrf` with
six decimal places). -/
def pad6 (n : Nat) : String :=
  String.mk (List.replicate (6 - (toString n).length) '0') ++ toString n

/-- Model of `tiskniFloat(x, 6, separator)` applied to `x = micros / 1000000.0`:
`dtostrf` renders the value with six decimal places and the first (only)
decimal point is replaced by the configured separator. For the microsecond
magnitudes handled here (far below 2^21) the nearest single-precision float
to `micros/10^6` rounds to the same six decimals as the exact rational, so
the decimal expansion is computed exactly. -/
def tiskniFloat (micros : Nat) (separator : Char) : String :=
  String.mk ((toString (micros / 1000000) ++ "." ++
    pad6 (micros % 1000000)).toList.map
      (fun c => if c == '.' then separator else c))

/-- Run-time state mutated by one evaluation pass of `loop()`:
the two consecutive-error counters (C `int`), the error-window start
timestamp `zacatekChyby` (`unsigned long`, milliseconds), and the two
output pins (reading `CHYBA_PIN`/`OUTPUT_PIN` back models `digitalRead`). -/
structure EvalState where
  outputPin : Bool
  pocetChybStridy : Int
  pocetChybPeriody : Int
  zacatekChyby : Nat
  errorPin : Bool
deriving DecidableEq, Repr

/-- The duty-cycle tolerance condition of the evaluation pass: fold the
duty into 0..500 (`stridaPromile`) and compare against
`min_strida`/`max_strida`. The C comparison is `int` against
`unsigned int`, which promotes the folded value to `unsigned int`. -/
def dutyOutOfTol (cfg : MojeNastaveni) (duty : Int) : Bool :=
  let stridaPromile : Int := if duty > 500 then 1000 - duty else duty
  decide ((stridaPromile % 65536).toNat < cfg.min_strida) ||
  decide (cfg.max_strida < (stridaPromile % 65536).toNat)

/-- The period tolerance condition: `unsigned long` against promoted
`unsigned int`. -/
def periodOutOfTol (cfg : MojeNastaveni) (period : Nat) : Bool :=
  decide (period < cfg.min_perioda) || decide (cfg.max_perioda < period)

/-- One evaluation pass of `loop()` (the `if (testuj)` block): output
control with hysteresis, the duty- and period-tolerance checks with their
consecutive-error counters and shared `zacatekChyby` timestamp, and the
minimum-duration error release. `nowMs` is the `millis()` reading of this
pass. `millis() - zacatekChyby` is wrap-safe `unsigned long` subtraction;
with a monotone clock below the 49-day wrap it equals truncated `Nat`
subtraction, which is how it is modelled. -/
def evalCycle (cfg : MojeNastaveni) (period : Nat) (duty : Int) (nowMs : Nat)
    (s : EvalState) : EvalState :=
  let outputPin :=
    if 10 * (cfg.horni_hranice : Int) < duty then decide (cfg.input = 0)
    else if duty < 10 * (cfg.spodni_hranice : Int) then decide (cfg.input ≠ 0)
    else s.outputPin
  let dOut := dutyOutOfTol cfg duty
  let zac1 := if dOut = true ∧ s.pocetChybStridy = 0 then nowMs
              else s.zacatekChyby
  let cS := if dOut = true then wrap16 (s.pocetChybStridy + 1) else 0
  let err1 := if dOut = true ∧ (cfg.max_error : Int) < cS ∧
                 cfg.max_error ≠ ERROR_OFF then true else s.errorPin
  let pOut := periodOutOfTol cfg period
  let zac2 := if pOut = true ∧ s.pocetChybPeriody = 0 then nowMs else zac1
  let cP := if pOut = true then wrap16 (s.pocetChybPeriody + 1) else 0
  let err2 := if pOut = true ∧ (cfg.max_error : Int) < cP ∧
                 cfg.max_error ≠ ERROR_OFF then true else err1
  let err3 := if cS = 0 ∧ cP = 0 ∧ err2 = true ∧
                 cfg.t_error < nowMs - zac2 then false else err2
  { outputPin := outputPin, pocetChybStridy := cS, pocetChybPeriody := cP,
    zacatekChyby := zac2, errorPin := err3 }

/-- Iterate `evalCycle`; pass `n` consumes period `p n`, duty `d n` at time
`tms n`. -/
def iterEval (cfg : MojeNastaveni) (p : Nat → Nat) (d : Nat → Int)
    (tms : Nat → Nat) (s0 : EvalState) : Nat → EvalState
  | 0 => s0
  | n + 1 => evalCycle cfg (p n) (d n) (tms n) (iterEval cfg p d tms s0 n)

/-- Source `const int casVypadku = 200`: the signal-loss watchdog timeout in ms. -/
def casVypadku : Nat := 200

/-- The `loop()`-owned state around the evaluation pass: the last accepted
sample values, the watchdog timestamp `casPoslednihoOdmeru`, the pending
flag `testuj`, and the evaluation state. -/
structure LoopState where
  stablePeriod : Nat
  stableDutyCyclePromile : Int
  impuls : Nat
  casPoslednihoOdmeru : Nat
  testuj : Bool
  ev : EvalState
deriving DecidableEq, Repr

/-- One iteration of `loop()` part 1: drain at most one sample (`popped` is
what `popMeasurement` returned), run the evaluation pass when `testuj` is
pending, then the signal-loss watchdog, which synthesizes a zero sample and
re-arms `casPoslednihoOdmeru` when more than `casVypadku` ms have passed
since the last sample. `nowMs` is the `millis()` reading of the iteration. -/
def loopIter (cfg : MojeNastaveni) (popped : Option PwmMeasurement)
    (nowMs : Nat) (s : LoopState) : LoopState :=
  let s :=
    match popped with
    | some m =>
      { s with stablePeriod := m.period,
               stableDutyCyclePromile := m.dutyCyclePromile,
               impuls := m.impuls, casPoslednihoOdmeru := nowMs,
               testuj := true }
    | none => s
  let s :=
    if s.testuj then
      { s with testuj := false,
               ev := evalCycle cfg s.stablePeriod s.stableDutyCyclePromile
                       nowMs s.ev }
    else s
  if casVypadku < nowMs - s.casPoslednihoOdmeru then
    { s with stablePeriod := 0, stableDutyCyclePromile := 0, impuls := 0,
             testuj := true, casPoslednihoOdmeru := nowMs }
  else s

/-- Iterate `loopIter`; iteration `n` sees pop result `pops n` at time
`tms n`. -/
def runLoop (cfg : MojeNastaveni) (pops : Nat → Option PwmMeasurement)
    (tms : Nat → Nat) (s0 : LoopState) : Nat → LoopState
  | 0 => s0
  | n + 1 => loopIter cfg (pops n) (tms n) (runLoop cfg pops tms s0 n)

/-- The watchdog fires during iteration `i`: more than `casVypadku` ms
elapsed between `tms i` and the armed timestamp. -/
def synthesizesAt (cfg : MojeNastaveni) (pops : Nat → Option PwmMeasurement)
    (tms : Nat → Nat) (s0 : LoopState) (i : Nat) : Prop :=
  casVypadku < tms i - (runLoop cfg pops tms s0 i).casPoslednihoOdmeru

instance (cfg pops tms s0 i) : Decidable (synthesizesAt cfg pops tms s0 i) := by
  unfold synthesizesAt; infer_instance

/-- C `tolower` over ASCII. -/
def tolowerC (c : Char) : Char :=
  if 'A' ≤ c ∧ c ≤ 'Z' then Char.ofNat (c.toNat + 32) else c

/-- The serial-input accumulation loop of `loop()` part 2: a terminator
(`\n` or `\r`) completes the line when the buffer is nonempty (and is
ignored otherwise); other bytes are lowercased and appended while room
remains, except that spaces are skipped while the buffer is still empty.
Returns the completed line, or `none` when the input ends mid-line. -/
def accumulate : List Char → List Char → Option (List Char)
  | [], _ => none
  | c :: rest, buf =>
    if c = '\n' ∨ c = '\r' then
      if buf.length > 0 then some buf else accumulate rest buf
    else if buf.length < MAX_COMMAND_LENGTH - 1 then
      if buf.length > 0 ∨ c ≠ ' ' then accumulate rest (buf ++ [tolowerC c])
      else accumulate rest buf
    else accumulate rest buf

/-- The PROGMEM help texts of the V1.3 revision (the zero-width characters
embedded in the `:FETCh?` line of the source are omitted). -/
def TEXT_T : String :=
  "-t [number1] [number2] to set duty cycle limits in % for flipping (1-99) pin6."

def TEXT_I : String := "-i [number] 0/1 - no/yes invert output."

def TEXT_P : String :=
  "-p [number1] [number2] to set limits for correct period in us (100-65000)."

def TEXT_S : String :=
  "-s [number1] [number2] to set limits for correct duty cycle in permille (1-499)."

def TEXT_E : String :=
  "-e [number1] to set the number of consecutive errors before the error pin (0-255) pin12 flips."

def TEXT_TE : String :=
  "-te [number] minimum error signaling duration (10-65000) ms."

def TEXT_BPS : String :=
  "-b [number] Serial buat rate 96 -> 9600, 144 -> 14400, 192 -> 19200, 288 -> 28800, 384 -> 38400, 576 -> 57600, 1152 -> 115200"

def TEXT_L : String :=
  "-l [number] 0/1 - no/yes lists current values of frequency and duty cycle."

def TEXT_H : String := "-h for help\n"

def TEXT_IDN : String := "Arduino NANO for measuring PWM signal duty cycle."

def TEXT_HIDN : String := "*IDN? returns IDN"

def TEXT_RST : String := "*RST sets all parameters to factory settings."

def TEXT_FETC : String :=
  ":FETCh? returns the duty cycle values of the PWM signal in per mille."

def TEXT_PWID : String :=
  ":MEASure:PWIDth? returns the length value of the HIGH signal."

def TEXT_PER : String := ":MEASure:PERiod? returns the signal period value."

def TEXT_DS : String := "-ds [char] decimal separator."

def TEXT_CS : String := "-cs [char] columns separator."

/-- Source `tiskniProgmem`: `Serial.print(F("Command: "))` then `Serial.println`. -/
def tiskniProgmem (t : String) : String := "Command: " ++ t ++ "\r\n"

/-- Model of `strncmp(cmd, pat, strlen(pat)) == 0`. -/
def pfx (pat : String) (cmd : List Char) : Bool := pat.toList.isPrefixOf cmd

/-- The measurement values read by the dispatcher: the last accepted
`stablePeriod`, `stableDutyCyclePromile` and `impuls` globals. -/
structure Meas where
  stablePeriod : Nat
  stableDutyCyclePromile : Int
  impuls : Nat
deriving Repr

/-- State of the `while (precteno != 255)` dispatch loop: the cursor `cmd`
into the received line, the chain-state byte `precteno`, the configuration,
and the accumulated serial output. -/
structure DState where
  cmd : List Char
  precteno : Nat
  cfg : MojeNastaveni
  out : String
deriving Repr

/-- The `columnsSeparator` + space prefix printed before a chained value
when a previous value was already produced (`precteno` is 2 or 3). -/
def chainSep (st : DState) : String :=
  if st.precteno = 2 ∨ st.precteno = 3 then
    String.singleton st.cfg.columnsSeparator ++ " "
  else ""

/-- Dispatch step for the exact-match `-h` help command. -/
def stepH (st : DState) : DState :=
  if st.cmd = "-h".toList then
    let help := tiskniProgmem TEXT_T ++ tiskniProgmem TEXT_I ++
      tiskniProgmem TEXT_P ++ tiskniProgmem TEXT_S ++ tiskniProgmem TEXT_E ++
      tiskniProgmem TEXT_TE ++ tiskniProgmem TEXT_BPS ++
      tiskniProgmem TEXT_L ++ tiskniProgmem TEXT_DS ++
      tiskniProgmem TEXT_CS ++ tiskniProgmem TEXT_HIDN ++
      tiskniProgmem TEXT_FETC ++ tiskniProgmem TEXT_PWID ++
      tiskniProgmem TEXT_PER
    { st with out := st.out ++ help, precteno := 255 }
  else st

/-- Dispatch step for `*idn?`. -/
def stepIdn (st : DState) : DState :=
  if pfx "*idn?" st.cmd then
    { st with out := st.out ++ TEXT_IDN ++ " Version: " ++ st.cfg.verze ++
        "\r\n", precteno := 255 }
  else st

/-- Dispatch step for `*rst` (factory reset, then listing). -/
def stepRst (st : DState) : DState :=
  if pfx "*rst" st.cmd then
    let cfg' := tovarniNastaveni
    let out := st.out ++ TEXT_RST ++ " Version: " ++ st.cfg.verze ++
      "\r\n" ++ zobrazNastaveni cfg'
    { st with out := out, cfg := cfg', precteno := 255 }
  else st

/-- Shared body of the four chainable measurement-query steps: print the
chain separator when a value was already produced, print `val`, then either
advance the cursor past `dropLen` characters (`precteno := 2`) or mark the
chain complete (`precteno := 4`). -/
def chainEmit (st : DState) (val : String) (dropLen : Nat) : DState :=
  let out := st.out ++ chainSep st ++ val
  if dropLen < st.cmd.length then
    { st with out := out, cmd := st.cmd.drop dropLen, precteno := 2 }
  else { st with out := out, precteno := 4 }

/-- Dispatch step for `:fetch?` (duty in permille, `Serial.println`). -/
def stepFetch (meas : Meas) (st : DState) : DState :=
  if pfx ":fetch?" st.cmd then
    chainEmit st (toString meas.stableDutyCyclePromile ++ "\r\n") 8
  else st

/-- Dispatch step for `:fetc?`. -/
def stepFetc (meas : Meas) (st : DState) : DState :=
  if pfx ":fetc?" st.cmd then
    chainEmit st (toString meas.stableDutyCyclePromile ++ "\r\n") 7
  else st

/-- Dispatch step for `:measure:pwidth?`. -/
def stepPwidth (meas : Meas) (st : DState) : DState :=
  if pfx ":measure:pwidth?" st.cmd then
    chainEmit st (tiskniFloat meas.impuls st.cfg.decimalSeparator) 17
  else st

/-- Dispatch step for `:meas:pwid?`. -/
def stepPwid (meas : Meas) (st : DState) : DState :=
  if pfx ":meas:pwid?" st.cmd then
    chainEmit st (tiskniFloat meas.impuls st.cfg.decimalSeparator) 12
  else st

/-- Dispatch step for `:measure:period?`. -/
def stepPeriodLong (meas : Meas) (st : DState) : DState :=
  if pfx ":measure:period?" st.cmd then
    chainEmit st (tiskniFloat meas.stablePeriod st.cfg.decimalSeparator) 17
  else st

/-- Dispatch step for `:meas:per?`. -/
def stepPer (meas : Meas) (st : DState) : DState :=
  if pfx ":meas:per?" st.cmd then
    chainEmit st (tiskniFloat meas.stablePeriod st.cfg.decimalSeparator) 11
  else st

/-- Shared body of the settings-command steps: run the validation routine
and print its help text when it failed; always terminal (`255`). -/
def settingStep (st : DState) (r : ZResult) (helpText : String) : DState :=
  let out := st.out ++ r.out ++ (if r.success then "" else tiskniProgmem helpText)
  { st with cfg := r.cfg, out := out, precteno := 255 }

/-- Dispatch step for `-te` (note the 100..65000 bounds passed here). -/
def stepTe (st : DState) : DState :=
  if pfx "-te" st.cmd then
    settingStep st (zpracujUniverzalniPrikaz st.cmd 100 65000 none none
      (some .tErrorF) none st.cfg) TEXT_TE
  else st

/-- Dispatch step for `-t ` (with the trailing space in the pattern). -/
def stepT (st : DState) : DState :=
  if pfx "-t " st.cmd then
    settingStep st (zpracujUniverzalniPrikaz st.cmd 1 99 (some .spodniF)
      (some .horniF) none none st.cfg) TEXT_T
  else st

/-- Dispatch step for `-i`. -/
def stepI (st : DState) : DState :=
  if pfx "-i" st.cmd then
    settingStep st (zpracujUniverzalniPrikaz st.cmd 0 1 (some .inputF) none
      none none st.cfg) TEXT_I
  else st

/-- Dispatch step for `-l`. -/
def stepL (st : DState) : DState :=
  if pfx "-l" st.cmd then
    settingStep st (zpracujUniverzalniPrikaz st.cmd 0 1 (some .listingF) none
      none none st.cfg) TEXT_L
  else st

/-- Dispatch step for `-p`. -/
def stepP (st : DState) : DState :=
  if pfx "-p" st.cmd then
    settingStep st (zpracujUniverzalniPrikaz st.cmd 100 65000 none none
      (some .minPeriodaF) (some .maxPeriodaF) st.cfg) TEXT_P
  else st

/-- Dispatch step for `-s`. -/
def stepS (st : DState) : DState :=
  if pfx "-s" st.cmd then
    settingStep st (zpracujUniverzalniPrikaz st.cmd 1 499 none none
      (some .minStridaF) (some .maxStridaF) st.cfg) TEXT_S
  else st

/-- Dispatch step for `-e`. -/
def stepE (st : DState) : DState :=
  if pfx "-e" st.cmd then
    settingStep st (zpracujUniverzalniPrikaz st.cmd 0 255 (some .maxErrorF)
      none none none st.cfg) TEXT_E
  else st

/-- Dispatch step for `-b`. -/
def stepB (st : DState) : DState :=
  if pfx "-b" st.cmd then
    settingStep st (zpracujUniverzalniPrikaz st.cmd 96 1152 none none
      (some .bpsF) none st.cfg) TEXT_BPS
  else st

/-- Dispatch step for `-ds` (exactly five characters set the decimal
separator; otherwise the block does nothing). -/
def stepDs (st : DState) : DState :=
  if pfx "-ds" st.cmd then
    if st.cmd.length = 5 then
      let cfg' := { st.cfg with decimalSeparator := st.cmd.getD 4 ' ' }
      let out := st.out ++ "\nLimits successfully updated:\r\n" ++
        zobrazNastaveni cfg'
      { st with cfg := cfg', out := out, precteno := 255 }
    else st
  else st

/-- Dispatch step for `-cs`. -/
def stepCs (st : DState) : DState :=
  if pfx "-cs" st.cmd then
    if st.cmd.length = 5 then
      let cfg' := { st.cfg with columnsSeparator := st.cmd.getD 4 ' ' }
      let out := st.out ++ "\nLimits successfully updated:\r\n" ++
        zobrazNastaveni cfg'
      { st with cfg := cfg', out := out, precteno := 255 }
    else st
  else st

/-- End-of-pass step: `precteno = 4` appends the single chain-terminating
newline. -/
def stepEnd4 (st : DState) : DState :=
  if st.precteno = 4 then { st with out := st.out ++ "\n", precteno := 255 }
  else st

/-- End-of-pass step: `precteno` 0 or 3 is an unknown command. -/
def stepUnknown (st : DState) : DState :=
  if st.precteno = 0 ∨ st.precteno = 3 then
    let out := st.out ++ "\nUnknown command or wrong format: " ++
      String.mk st.cmd ++ "\r\n" ++ tiskniProgmem TEXT_H
    { st with out := out, precteno := 255 }
  else st

/-- End-of-pass step: `precteno = 2` becomes 3. -/
def step23 (st : DState) : DState :=
  if st.precteno = 2 then { st with precteno := 3 } else st

/-- One pass of the `while (precteno != 255)` dispatch loop body: every
command pattern is tried in source order against the *current* cursor and
chain state (the blocks are independent `if`s, so a chained advance made
earlier in the same pass is visible to the later patterns). -/
def loopBody (meas : Meas) (st : DState) : DState :=
  st |> stepH |> stepIdn |> stepRst |> stepFetch meas |> stepFetc meas
    |> stepPwidth meas |> stepPwid meas |> stepPeriodLong meas
    |> stepPer meas |> stepTe |> stepT |> stepI |> stepL |> stepP |> stepS
    |> stepE |> stepB |> stepDs |> stepCs |> stepEnd4 |> stepUnknown
    |> step23

/-- Run the dispatch loop until `precteno = 255` (fuel-bounded; the fuel
passed by `dispatchLine` exceeds the number of passes any line can need,
since every pass either terminates, strictly advances the cursor, or moves
the chain state to a value the next pass terminates on). -/
def dispatchLoop (meas : Meas) : Nat → DState → DState
  | 0, st => st
  | fuel + 1, st =>
    if st.precteno = 255 then st
    else dispatchLoop meas fuel (loopBody meas st)

/-- Dispatch one completed line (`if (newData)` block): start at the line
head with `precteno = 0` and loop. -/
def dispatchLine (line : List Char) (meas : Meas) (cfg : MojeNastaveni) :
    DState :=
  let st0 : DState := { cmd := line, precteno := 0, cfg := cfg, out := "" }
  dispatchLoop meas (line.length + 2) st0

/-! ## Theorems -/

theorem wrap16_eq_self (x : Int) (h1 : -32768 ≤ x) (h2 : x ≤ 32767) :
    wrap16 x = x := by
  unfold wrap16
  have h : (x + 32768) % 65536 = x + 32768 :=
    Int.emod_eq_of_lt (by omega) (by omega)
  omega

/-- Claim C1: the spec (and the firmware's own `-b` help text and the
comments around its special validation) say `-b 1000` must be rejected with
a range error, `bps` keeping its prior value, because 1000 is not one of
the enumerated speed codes. The code disagrees: its enumerated-set check
guards on `strcmp(command, "-b") == 0` where `command` is the whole
received line, so the check never fires and the generic 96..1152 range
check accepts 1000: dispatching `-b 1000` on the factory configuration sets
`bps` to 1000 and reports a successful update. -/
theorem C1_b1000_accepted :
    (dispatchLine ("-b 1000".toList) ⟨0, 0, 0⟩ tovarniNastaveni).cfg.bps
       = 1000 ∧
    (zpracujUniverzalniPrikaz ("-b 1000".toList) 96 1152 none none
       (some .bpsF) none tovarniNastaveni).success = true := by
  decide

/-- Claim C2 (counterexample): the claim says a capacity-`BUFFER_SIZE`
queue keeps the first 10 of 11 pushed samples; in fact the ring buffer
keeps one slot free, so only the first 9 survive: pushing the 11 distinct
samples below into the empty queue and then popping returns the first 9,
which differs from the first 10. -/
theorem C2_counterexample :
    popList 11 (pushList emptyQueue
        ((List.range 11).map (fun i => ⟨i + 1, i, i⟩)))
      = ((List.range 11).map (fun i => (⟨i + 1, i, i⟩ : PwmMeasurement))).take 9 ∧
    ((List.range 11).map (fun i => (⟨i + 1, i, i⟩ : PwmMeasurement))).take 9
      ≠ ((List.range 11).map (fun i => (⟨i + 1, i, i⟩ : PwmMeasurement))).take 10 := by
  decide

set_option maxHeartbeats 1000000 in
/-- Claim C2 (amended): pushing `BUFFER_SIZE + 1 = 11` samples into the
empty queue stores the first `BUFFER_SIZE - 1 = 9` and silently drops the
rest (the ring buffer's effective capacity is `BUFFER_SIZE - 1`); the
subsequent pops return exactly those 9 samples in push order, and a pop
from the empty queue reports no data and leaves the queue unchanged. -/
theorem C2_queue_fifo (m : Fin 11 → PwmMeasurement) :
    popList 11 (pushList emptyQueue
        [m 0, m 1, m 2, m 3, m 4, m 5, m 6, m 7, m 8, m 9, m 10])
      = [m 0, m 1, m 2, m 3, m 4, m 5, m 6, m 7, m 8] ∧
    popMeasurement emptyQueue = (none, emptyQueue) := by
  constructor
  · simp [popList, pushList, pushMeasurement, popMeasurement, emptyQueue,
      setNth, BUFFER_SIZE, List.foldl]
  · simp [popMeasurement, emptyQueue]

/-- Claim C4: the spec table and the firmware's own `-te` help text
(`TEXT_TE`, printed by `-h` and on every rejected `-te`) declare the
accepted range 10..65000 ms, but the dispatcher passes 100 and 65000 to the
validation routine, so `-te 10` — a value the documentation accepts — is
rejected and `t_error` keeps its prior value. -/
theorem C4_te10_rejected :
    (dispatchLine ("-te 10".toList) ⟨0, 0, 0⟩ tovarniNastaveni).cfg
       = tovarniNastaveni ∧
    (zpracujUniverzalniPrikaz ("-te 10".toList) 100 65000 none none
       (some .tErrorF) none tovarniNastaveni).success = false ∧
    (zpracujUniverzalniPrikaz ("-te 10".toList) 100 65000 none none
       (some .tErrorF) none tovarniNastaveni).out
       = rangeErrMsg 100 65000 true := by
  decide

/-- Claim C7: dispatching the chained query line `:meas:pwid? :meas:per?`
with pulse width 6312 µs and period 20076 µs under the factory separators
(',' decimal, ';' field) emits exactly `0,006312; 0,020076` followed by a
single line terminator, and changes no configuration. -/
theorem C7_chained_query :
    (dispatchLine (":meas:pwid? :meas:per?".toList) ⟨20076, 313, 6312⟩
        tovarniNastaveni).out = "0,006312; 0,020076\n" ∧
    (dispatchLine (":meas:pwid? :meas:per?".toList) ⟨20076, 313, 6312⟩
        tovarniNastaveni).cfg = tovarniNastaveni := by
  decide

/-- Claim C8: whenever the shared validation routine reports failure — too
few integers parsed, a value outside the `minValue..maxValue` bounds, or
`low > high` for a two-value command — the configuration it returns is the
one it was given, unchanged in every field, and `EEPROM.put` was not
executed. -/
theorem C8_failed_update_unchanged (command : List Char) (minValue maxValue : Nat)
    (lowPtr highPtr : Option BField) (uLowPtr uHighPtr : Option UField)
    (cfg : MojeNastaveni)
    (h : (zpracujUniverzalniPrikaz command minValue maxValue lowPtr highPtr
            uLowPtr uHighPtr cfg).success = false) :
    (zpracujUniverzalniPrikaz command minValue maxValue lowPtr highPtr
        uLowPtr uHighPtr cfg).cfg = cfg ∧
    (zpracujUniverzalniPrikaz command minValue maxValue lowPtr highPtr
        uLowPtr uHighPtr cfg).eeprom = false := by
  unfold zpracujUniverzalniPrikaz at h ⊢
  revert h
  cases (if uHighPtr.isSome || highPtr.isSome then sscanfTwoLd command
         else (sscanfOneLd command).map (fun v => (v, v))) with
  | none => intro h; exact ⟨rfl, rfl⟩
  | some ab =>
    obtain ⟨a, b⟩ := ab
    intro h
    change (zpracujValidate command minValue maxValue lowPtr highPtr uLowPtr
      uHighPtr cfg a b).success = false at h
    show (zpracujValidate command minValue maxValue lowPtr highPtr uLowPtr
        uHighPtr cfg a b).cfg = cfg ∧
      (zpracujValidate command minValue maxValue lowPtr highPtr uLowPtr
        uHighPtr cfg a b).eeprom = false
    unfold zpracujValidate at h ⊢
    split_ifs at h ⊢
    all_goals exact ⟨rfl, rfl⟩

/-- Witness for `C8_failed_update_unchanged`: the rejected line `-t 70 30`
(low > high) leaves the factory configuration untouched. -/
theorem C8_failed_update_unchanged_witness :
    (zpracujUniverzalniPrikaz ("-t 70 30".toList) 1 99 (some .spodniF)
        (some .horniF) none none tovarniNastaveni).cfg = tovarniNastaveni ∧
    (zpracujUniverzalniPrikaz ("-t 70 30".toList) 1 99 (some .spodniF)
        (some .horniF) none none tovarniNastaveni).eeprom = false :=
  C8_failed_update_unchanged ("-t 70 30".toList) 1 99 (some .spodniF)
    (some .horniF) none none tovarniNastaveni (by decide)

/-- Claim C9 (counterexample): the claim says the accumulator collapses
runs of spaces so that no dispatched line contains two consecutive spaces;
feeding the bytes `a␣␣b⏎` produces the line `a␣␣b`, whose characters at
positions 1 and 2 are both spaces. -/
theorem C9_counterexample :
    accumulate ("a  b\n".toList) [] = some ("a  b".toList) ∧
    ("a  b".toList).getD 1 'x' = ' ' ∧ ("a  b".toList).getD 2 'x' = ' ' := by
  decide

theorem tolowerC_toNat (c : Char) (h1 : 'A' ≤ c) (h2 : c ≤ 'Z') :
    (tolowerC c).toNat = c.toNat + 32 := by
  have hle : 65 ≤ c.toNat := h1
  have hge : c.toNat ≤ 90 := h2
  have hv : (c.toNat + 32).isValidChar := by left; omega
  unfold tolowerC
  rw [if_pos ⟨h1, h2⟩]
  show (Char.ofNat (c.toNat + 32)).toNat = c.toNat + 32
  unfold Char.ofNat
  rw [dif_pos hv]
  rfl

theorem tolowerC_not_upper (c : Char) :
    ¬('A' ≤ tolowerC c ∧ tolowerC c ≤ 'Z') := by
  by_cases h : 'A' ≤ c ∧ c ≤ 'Z'
  · have hle : 65 ≤ c.toNat := h.1
    have ht := tolowerC_toNat c h.1 h.2
    intro hcon
    have hu : (tolowerC c).toNat ≤ 90 := hcon.2
    omega
  · unfold tolowerC
    rw [if_neg h]
    exact h

theorem tolowerC_ne_space (c : Char) (h : c ≠ ' ') : tolowerC c ≠ ' ' := by
  by_cases hc : 'A' ≤ c ∧ c ≤ 'Z'
  · have hle : 65 ≤ c.toNat := hc.1
    have ht := tolowerC_toNat c hc.1 hc.2
    intro he
    have : (tolowerC c).toNat = 32 := by rw [he]; rfl
    omega
  · unfold tolowerC
    rw [if_neg hc]
    exact h

/-- Invariant of the accumulation loop: a buffer that does not start with a
space and contains no uppercase letter can only complete into a line with
the same properties, and completed lines are nonempty. -/
theorem accumulate_inv (input : List Char) : ∀ (buf line : List Char),
    buf.head? ≠ some ' ' → (∀ c ∈ buf, ¬('A' ≤ c ∧ c ≤ 'Z')) →
    accumulate input buf = some line →
    line ≠ [] ∧ line.head? ≠ some ' ' ∧ ∀ c ∈ line, ¬('A' ≤ c ∧ c ≤ 'Z') := by
  induction input with
  | nil => intro buf line _ _ h; simp [accumulate] at h
  | cons c rest ih =>
    intro buf line hh hu h
    rw [accumulate] at h
    split at h
    · split at h
      · rename_i hlen
        have hbl : buf = line := by injection h
        subst hbl
        exact ⟨by intro hnil; simp [hnil] at hlen, hh, hu⟩
      · exact ih buf line hh hu h
    · split at h
      · split at h
        · rename_i _ _ hcond
          refine ih (buf ++ [tolowerC c]) line ?_ ?_ h
          · cases buf with
            | nil =>
              have hc : c ≠ ' ' := by
                rcases hcond with hlen | hne
                · simp at hlen
                · exact hne
              simpa using tolowerC_ne_space c hc
            | cons b bs => simpa using hh
          · intro x hx
            rcases List.mem_append.mp hx with hx | hx
            · exact hu x hx
            · simp at hx
              subst hx
              exact tolowerC_not_upper c
        · exact ih buf line hh hu h
      · exact ih buf line hh hu h

/-- Claim C9 (amended): during input accumulation every stored byte is
lowercased, and spaces are suppressed only while the buffer is still empty
(leading spaces); interior space runs and a trailing space are stored as
received. Consequently every dispatched line is nonempty, does not begin
with a space, and contains no uppercase letter — but it may contain
consecutive interior spaces and may end in a space. -/
theorem C9_line_normalization (input line : List Char)
    (h : accumulate input [] = some line) :
    line ≠ [] ∧ line.head? ≠ some ' ' ∧
    ∀ c ∈ line, ¬('A' ≤ c ∧ c ≤ 'Z') :=
  accumulate_inv input [] line (by simp) (by simp) h

/-- Witness for `C9_line_normalization` at the input bytes `AB x⏎`. -/
theorem C9_line_normalization_witness :
    "ab x".toList ≠ [] ∧ ("ab x".toList).head? ≠ some ' ' ∧
    ∀ c ∈ "ab x".toList, ¬('A' ≤ c ∧ c ≤ 'Z') :=
  C9_line_normalization ("AB x\n".toList) ("ab x".toList) (by decide)

/-- Claim C10 (counterexample): the claim's proviso — `highDuration * 1000`
fits in 32 bits — is not sufficient: with `highDuration = 1000` and a LOW
duration of `2^32 - 500` µs the 32-bit sum wraps to 500, and the ISR
enqueues a sample whose period (500) differs from
`highDuration + lowDuration` and whose duty is 2000 ∉ [0, 1000]. -/
theorem C10_counterexample :
    (popMeasurement (handlePinChange (U32 - 500) false ⟨0, 1000, 0, false⟩
        emptyQueue).2).1 = some ⟨500, 2000, 1000⟩ ∧
    1000 * 1000 < U32 ∧
    ¬((2000 : Int) ≤ 1000) ∧ (500 : Nat) ≠ 1000 + (U32 - 500) := by
  decide

/-- Claim C10 (amended): when neither `highDuration * 1000` nor the period
sum `highDuration + lowDuration` overflows 32 bits, every sample produced
by the edge-capture path has `period = highDuration + lowDuration` with
both components nonzero and duty in [0, 1000]; unconditionally, the
edge-capture path never enqueues a sample with `period = 0` (a zero period
can only come from the watchdog synthesis); and `handlePinChange` changes
the queue only by pushing the sample `isrNewSample` computes. -/
theorem C10_isr_sample :
    (∀ high dur m, high * 1000 < U32 → high + dur < U32 →
       isrNewSample high dur = some m →
       m.period = high + dur ∧ 0 < high ∧ 0 < dur ∧
       0 ≤ m.dutyCyclePromile ∧ m.dutyCyclePromile ≤ 1000 ∧
       m.impuls = high) ∧
    (∀ high dur m, isrNewSample high dur = some m → 0 < m.period) ∧
    (∀ t lvl s q, (handlePinChange t lvl s q).2 = q ∨
       ∃ m, isrNewSample s.highDuration
              ((t % U32 + U32 - s.lastEdgeTime % U32) % U32) = some m ∧
            (handlePinChange t lvl s q).2 = pushMeasurement q m) := by
  refine ⟨?_, ?_, ?_⟩
  · intro high dur m hmul hsum h
    unfold isrNewSample at h
    split at h
    · rename_i hpos
      have hper : (high + dur) % U32 = high + dur := Nat.mod_eq_of_lt hsum
      rw [hper] at h
      split at h
      · rename_i hper0
        have hmm : (high * 1000) % U32 = high * 1000 := Nat.mod_eq_of_lt hmul
        rw [hmm] at h
        have hq : high * 1000 / (high + dur) ≤ 1000 := by
          have h1 : high * 1000 / (high + dur) ≤ high * 1000 / high :=
            Nat.div_le_div_left (Nat.le_add_right high dur) hpos.1
          have h2 : high * 1000 / high = 1000 :=
            Nat.mul_div_cancel_left 1000 hpos.1
          omega
        have hq0 : (0 : Int) ≤ ((high * 1000 / (high + dur) : Nat) : Int) :=
          Int.ofNat_nonneg _
        have hq1 : ((high * 1000 / (high + dur) : Nat) : Int) ≤ 1000 := by
          exact_mod_cast hq
        have hw : wrap16 ((high * 1000 / (high + dur) : Nat) : Int)
            = ((high * 1000 / (high + dur) : Nat) : Int) :=
          wrap16_eq_self _ (by omega) (by omega)
        rw [hw] at h
        rw [Option.some_inj] at h
        subst h
        exact ⟨rfl, hpos.1, hpos.2, hq0, hq1, rfl⟩
      · exact absurd h (by simp)
    · exact absurd h (by simp)
  · intro high dur m h
    unfold isrNewSample at h
    split at h
    · split at h
      · rename_i hper0
        rw [Option.some_inj] at h
        subst h
        exact hper0
      · exact absurd h (by simp)
    · exact absurd h (by simp)
  · intro t lvl s q
    unfold handlePinChange
    by_cases hl : lvl = false
    · rw [if_pos hl]
      cases hs : isrNewSample s.highDuration
          ((t % U32 + U32 - s.lastEdgeTime % U32) % U32) with
      | none => simp [hs]
      | some m => right; exact ⟨m, rfl, by simp [hs]⟩
    · rw [if_neg hl]
      left; rfl

/-- One evaluation pass under a duty fault with the period in tolerance:
the duty counter increments, the period counter resets, and the error pin
asserts exactly when the incremented counter exceeds a non-sentinel
`max_error`. -/
theorem evalCycle_dutyFault (cfg : MojeNastaveni) (per : Nat) (duty : Int)
    (nowMs : Nat) (s : EvalState)
    (hd : dutyOutOfTol cfg duty = true) (hp : periodOutOfTol cfg per = false)
    (hc0 : 0 ≤ s.pocetChybStridy) (hc1 : s.pocetChybStridy ≤ 32766) :
    (evalCycle cfg per duty nowMs s).pocetChybStridy
        = s.pocetChybStridy + 1 ∧
    (evalCycle cfg per duty nowMs s).pocetChybPeriody = 0 ∧
    (evalCycle cfg per duty nowMs s).errorPin
        = (if (cfg.max_error : Int) < s.pocetChybStridy + 1 ∧
              cfg.max_error ≠ ERROR_OFF then true else s.errorPin) := by
  have hw : wrap16 (s.pocetChybStridy + 1) = s.pocetChybStridy + 1 :=
    wrap16_eq_self _ (by omega) (by omega)
  simp only [evalCycle, hd, hp, hw]
  simp
  intro _
  left
  omega

/-- With `max_error` at the sentinel `ERROR_OFF`, one evaluation pass never
raises the error pin. -/
theorem evalCycle_sentinel (cfg : MojeNastaveni) (per : Nat) (duty : Int)
    (nowMs : Nat) (s : EvalState) (h255 : cfg.max_error = ERROR_OFF)
    (hpin : s.errorPin = false) :
    (evalCycle cfg per duty nowMs s).errorPin = false := by
  simp only [evalCycle, h255]
  split_ifs <;> simp_all

/-- Counter/error-pin invariant of iterated evaluation under a sustained
duty fault with the period in tolerance, starting from cleared counters and
a released error pin. -/
theorem iterEval_dutyFault_inv (cfg : MojeNastaveni) (p : Nat → Nat)
    (d : Nat → Int) (tms : Nat → Nat) (s0 : EvalState)
    (hE : cfg.max_error < 256)
    (hs1 : s0.pocetChybStridy = 0) (hs2 : s0.pocetChybPeriody = 0)
    (hs3 : s0.errorPin = false)
    (hd : ∀ i, i ≤ cfg.max_error → dutyOutOfTol cfg (d i) = true)
    (hp : ∀ i, i ≤ cfg.max_error → periodOutOfTol cfg (p i) = false) :
    ∀ n, n ≤ cfg.max_error + 1 →
      (iterEval cfg p d tms s0 n).pocetChybStridy = (n : Int) ∧
      (iterEval cfg p d tms s0 n).pocetChybPeriody = 0 ∧
      (iterEval cfg p d tms s0 n).errorPin
        = (if cfg.max_error < n ∧ cfg.max_error ≠ ERROR_OFF then true
           else false) := by
  intro n
  induction n with
  | zero =>
    intro _
    refine ⟨by simpa using hs1, hs2, ?_⟩
    rw [if_neg (by omega)]
    exact hs3
  | succ n ih =>
    intro hn
    have hn' : n ≤ cfg.max_error := by omega
    obtain ⟨ih1, ih2, ih3⟩ := ih (by omega)
    have hstep := evalCycle_dutyFault cfg (p n) (d n) (tms n)
      (iterEval cfg p d tms s0 n) (hd n hn') (hp n hn')
      (by rw [ih1]; positivity) (by rw [ih1]; exact_mod_cast by omega)
    rw [iterEval]
    refine ⟨by rw [hstep.1, ih1]; push_cast; ring, hstep.2.1, ?_⟩
    rw [hstep.2.2, ih1, ih3]
    split_ifs with hA hB hB <;> first
      | rfl
      | (exfalso; unfold ERROR_OFF at *; omega)

/-- Claim C3: starting from cleared error counters and a released error
pin, if the normalized duty is out of tolerance (and the period in
tolerance) on every one of the first `max_error + 1` evaluation cycles,
the error output is still released after every cycle up to `max_error` and
asserts on cycle `max_error + 1`; with `max_error` at the sentinel 255
(`ERROR_OFF`) the error output is never asserted, whatever the inputs. -/
theorem C3_error_debounce (cfg : MojeNastaveni) (p : Nat → Nat)
    (d : Nat → Int) (tms : Nat → Nat) (s0 : EvalState)
    (hE : cfg.max_error < 256)
    (hs : s0.pocetChybStridy = 0 ∧ s0.pocetChybPeriody = 0 ∧
          s0.errorPin = false)
    (hd : ∀ i, i ≤ cfg.max_error → dutyOutOfTol cfg (d i) = true)
    (hp : ∀ i, i ≤ cfg.max_error → periodOutOfTol cfg (p i) = false) :
    (cfg.max_error ≠ ERROR_OFF →
      (∀ n, n ≤ cfg.max_error →
        (iterEval cfg p d tms s0 n).errorPin = false) ∧
      (iterEval cfg p d tms s0 (cfg.max_error + 1)).errorPin = true) ∧
    (cfg.max_error = ERROR_OFF →
      ∀ n, (iterEval cfg p d tms s0 n).errorPin = false) := by
  obtain ⟨hs1, hs2, hs3⟩ := hs
  constructor
  · intro hoff
    constructor
    · intro n hn
      have h := (iterEval_dutyFault_inv cfg p d tms s0 hE hs1 hs2 hs3 hd hp
        n (by omega)).2.2
      rw [h, if_neg (by omega)]
    · have h := (iterEval_dutyFault_inv cfg p d tms s0 hE hs1 hs2 hs3 hd hp
        (cfg.max_error + 1) (by omega)).2.2
      rw [h, if_pos ⟨by omega, hoff⟩]
  · intro hoff n
    induction n with
    | zero => exact hs3
    | succ n ih =>
      rw [iterEval]
      exact evalCycle_sentinel cfg (p n) (d n) (tms n) _ hoff ih

/-- Witness for `C3_error_debounce`: the factory configuration
(`max_error = 1`) with duty 0 (folded duty 0, below `min_strida = 280`) and
period 20000 (inside 18000..22000): released after 1 cycle, asserted after
2. -/
theorem C3_error_debounce_witness :
    (iterEval tovarniNastaveni (fun _ => 20000) (fun _ => 0) (fun _ => 0)
      ⟨false, 0, 0, 0, false⟩ 1).errorPin = false ∧
    (iterEval tovarniNastaveni (fun _ => 20000) (fun _ => 0) (fun _ => 0)
      ⟨false, 0, 0, 0, false⟩ 2).errorPin = true := by
  have h := (C3_error_debounce tovarniNastaveni (fun _ => 20000)
    (fun _ => 0) (fun _ => 0) ⟨false, 0, 0, 0, false⟩ (by decide)
    ⟨rfl, rfl, rfl⟩
    (fun i _ => (show dutyOutOfTol tovarniNastaveni 0 = true by decide))
    (fun i _ =>
      (show periodOutOfTol tovarniNastaveni 20000 = false by decide))).1
    (by decide)
  exact ⟨h.1 1 (by decide), h.2⟩

/-- A loop iteration that pops nothing and whose watchdog condition holds
synthesizes the zero sample, marks it for evaluation, and re-arms the
watchdog timestamp to the current time. -/
theorem loopIter_none_fire (cfg : MojeNastaveni) (nowMs : Nat)
    (s : LoopState) (hf : casVypadku < nowMs - s.casPoslednihoOdmeru) :
    (loopIter cfg none nowMs s).stablePeriod = 0 ∧
    (loopIter cfg none nowMs s).stableDutyCyclePromile = 0 ∧
    (loopIter cfg none nowMs s).impuls = 0 ∧
    (loopIter cfg none nowMs s).testuj = true ∧
    (loopIter cfg none nowMs s).casPoslednihoOdmeru = nowMs := by
  simp only [loopIter]
  split_ifs <;> simp_all

/-- A loop iteration that pops nothing and whose watchdog condition fails
leaves the watchdog timestamp unchanged. -/
theorem loopIter_none_nofire (cfg : MojeNastaveni) (nowMs : Nat)
    (s : LoopState) (hf : ¬ casVypadku < nowMs - s.casPoslednihoOdmeru) :
    (loopIter cfg none nowMs s).casPoslednihoOdmeru
      = s.casPoslednihoOdmeru := by
  simp only [loopIter]
  split_ifs <;> simp_all

/-- Claim C5: along a run in which no real sample is ever popped, (a) every
iteration whose watchdog fires leaves behind the synthesized zero sample
(period, duty and pulse width all 0) marked for evaluation, with the
watchdog timestamp re-armed to that iteration's `millis()`; and (b)
between one watchdog firing and the next, more than `casVypadku = 200` ms
of wall-clock time elapse — no second zero sample is synthesized inside
the same 200 ms window. -/
theorem C5_watchdog (cfg : MojeNastaveni)
    (pops : Nat → Option PwmMeasurement) (tms : Nat → Nat) (s0 : LoopState)
    (hnopop : ∀ k, pops k = none) :
    (∀ i, synthesizesAt cfg pops tms s0 i →
       (runLoop cfg pops tms s0 (i + 1)).stablePeriod = 0 ∧
       (runLoop cfg pops tms s0 (i + 1)).stableDutyCyclePromile = 0 ∧
       (runLoop cfg pops tms s0 (i + 1)).impuls = 0 ∧
       (runLoop cfg pops tms s0 (i + 1)).testuj = true ∧
       (runLoop cfg pops tms s0 (i + 1)).casPoslednihoOdmeru = tms i) ∧
    (∀ i j, i < j → synthesizesAt cfg pops tms s0 i →
       synthesizesAt cfg pops tms s0 j →
       (∀ k, i < k → k < j → ¬ synthesizesAt cfg pops tms s0 k) →
       casVypadku < tms j - tms i) := by
  have hstep : ∀ i, runLoop cfg pops tms s0 (i + 1)
      = loopIter cfg none (tms i) (runLoop cfg pops tms s0 i) := by
    intro i
    rw [runLoop, hnopop i]
  constructor
  · intro i hsi
    rw [hstep i]
    exact loopIter_none_fire cfg (tms i) _ hsi
  · intro i j hij hsi hsj hno
    have key : ∀ k, i < k → k ≤ j →
        (runLoop cfg pops tms s0 k).casPoslednihoOdmeru = tms i := by
      intro k
      induction k with
      | zero => omega
      | succ k ih =>
        intro hk1 hk2
        rcases Nat.lt_or_ge i k with hik | hik
        · have hkj : k < j := by omega
          rw [hstep k,
            loopIter_none_nofire cfg (tms k) _ (hno k hik hkj),
            ih hik (by omega)]
        · have hki : k = i := by omega
          subst hki
          rw [hstep k]
          exact (loopIter_none_fire cfg (tms k) _ hsi).2.2.2.2
    have hj := hsj
    unfold synthesizesAt at hj
    rwa [key j hij (by omega)] at hj

/-- Witness for `C5_watchdog`: no pops, iteration times 201, 402, …; the
watchdog fires at iterations 0 and 1, the synthesized sample is zero, and
the two firings are 201 > 200 ms apart. -/
theorem C5_watchdog_witness :
    (runLoop tovarniNastaveni (fun _ => none) (fun k => 201 * (k + 1))
      ⟨0, 0, 0, 0, false, ⟨false, 0, 0, 0, false⟩⟩ 1).stablePeriod = 0 ∧
    casVypadku < 201 * (1 + 1) - 201 * (0 + 1) := by
  have h := C5_watchdog tovarniNastaveni (fun _ => none)
    (fun k => 201 * (k + 1)) ⟨0, 0, 0, 0, false, ⟨false, 0, 0, 0, false⟩⟩
    (fun _ => rfl)
  constructor
  · exact (h.1 0 (by decide)).1
  · exact h.2 0 1 (by omega) (by decide) (by decide)
      (fun k hk1 hk2 => absurd hk2 (by omega))

/-- Claim C6: on a fault-free evaluation cycle (both tolerance checks pass,
so both counters return to zero) with the error output asserted, the output
is de-asserted exactly when more than `t_error` ms have elapsed since the
recorded fault-window start `zacatekChyby` (which such a cycle leaves
unchanged); otherwise it remains asserted. -/
theorem C6_error_release (cfg : MojeNastaveni) (per : Nat) (duty : Int)
    (nowMs : Nat) (s : EvalState)
    (hd : dutyOutOfTol cfg duty = false) (hp : periodOutOfTol cfg per = false)
    (hpin : s.errorPin = true) :
    ((evalCycle cfg per duty nowMs s).errorPin = false ↔
      cfg.t_error < nowMs - s.zacatekChyby) ∧
    (evalCycle cfg per duty nowMs s).zacatekChyby = s.zacatekChyby := by
  constructor
  · simp only [evalCycle, hd, hp]
    simp [hpin]
  · simp [evalCycle, hd, hp]

/-- Witness for `C6_error_release`: factory configuration
(`t_error = 800`), duty 300 and period 20000 (both in tolerance), pin
asserted with fault window opened at 0 ms: at 1000 ms the pin is released
(and it would not be at 800 ms or earlier). -/
theorem C6_error_release_witness :
    (evalCycle tovarniNastaveni 20000 300 1000
      ⟨false, 0, 0, 0, true⟩).errorPin = false :=
  ((C6_error_release tovarniNastaveni 20000 300 1000 ⟨false, 0, 0, 0, true⟩
    (by decide) (by decide) rfl).1).mpr (by decide)

/-- Witness for `C10_isr_sample` at `highDuration = lowDuration = 1000` µs:
the enqueued sample is `⟨2000, 500, 1000⟩`. -/
theorem C10_isr_sample_witness :
    (⟨2000, 500, 1000⟩ : PwmMeasurement).period = 1000 + 1000 ∧
    0 < (1000 : Nat) ∧ 0 < (1000 : Nat) ∧
    0 ≤ (⟨2000, 500, 1000⟩ : PwmMeasurement).dutyCyclePromile ∧
    (⟨2000, 500, 1000⟩ : PwmMeasurement).dutyCyclePromile ≤ 1000 ∧
    (⟨2000, 500, 1000⟩ : PwmMeasurement).impuls = 1000 :=
  C10_isr_sample.1 1000 1000 ⟨2000, 500, 1000⟩ (by decide) (by decide)
    (by decide)

